import Mathlib

/-!
Verification development for the agentic orchestration core of the
outlook-realaization repository (TypeScript).  The data model and the
operations below are shallow embeddings of the source files:
`src/agents/BaseAgent.ts`, `src/agents/AgentOrchestrator.ts` (shipped inside
`src/agents/index.ts`), `src/agents/CalendarAgent.ts`,
`src/agents/AnalysisAgent.ts`, `src/agents/ReportAgent.ts`,
`src/services/llmService.ts`, `src/services/excelService.ts` and
`src/utils/domainExtractor.ts`.

External collaborators (the LLM endpoint reached through `fetch`, the tool
handlers' own effects, `Date` formatting, the XLSX library) are modelled as
oracle parameters; everything that is control flow or data manipulation of
the repository itself is translated directly.
-/

/-- JS truthiness for strings: `a || b` returns `b` when `a` is the empty
string (the only falsy string). Used wherever the source writes `x || d`. -/
def jsOr (s d : String) : String :=
  if s = "" then d else s

/-- JS `a || b` where `a : string | null | undefined`. -/
def jsOrOpt (s : Option String) (d : String) : String :=
  match s with
  | none => d
  | some s => jsOr s d

/-- Message roles, from `AgentTypes.ts` (`'system' | 'user' | 'assistant' | 'tool'`). -/
inductive Role
  | system
  | user
  | assistant
  | tool
deriving DecidableEq, Repr

/-- `ToolCall` from `AgentTypes.ts`: `{id, type: 'function', function: {name, arguments}}`.
The constant `type` tag is elided; `argumentsJson` is the raw JSON string. -/
structure ToolCall where
  id : String
  name : String
  argumentsJson : String
deriving DecidableEq, Repr

/-- Outcome of processing one tool call in `BaseAgent.run` (lines 173-194):
either the serialized handler result (`JSON.stringify(result)`) or the
serialized error object (`JSON.stringify) of the error message).  Covers a
thrown handler, an unknown tool name (`executeTool` throws), and
`JSON.parse` failing on the arguments - all are caught by the same block. -/
inductive ToolOutcome
  | ok (resultJson : String)
  | err (errorMessage : String)
deriving DecidableEq, Repr

/-- Content of a conversation message: plain text, JS `null`, or the
serialized tool result pushed by `BaseAgent.run`. -/
inductive MsgContent
  | text (s : String)
  | null
  | toolResult (o : ToolOutcome)
deriving DecidableEq, Repr

/-- `AgentMessage` from `AgentTypes.ts`. -/
structure AgentMessage where
  role : Role
  content : MsgContent
  tool_calls : List ToolCall := []
  tool_call_id : Option String := none
deriving DecidableEq, Repr

/-- `EmailAddress` from `CalendarEvent.ts`. -/
structure EmailAddress where
  name : String
  address : String
deriving DecidableEq, Repr

/-- `Attendee` from `CalendarEvent.ts`; the `type` and `status` fields are
never read by the code under verification and are elided. -/
structure Attendee where
  emailAddress : EmailAddress
deriving DecidableEq, Repr

/-- `DateTimeTimeZone` from `CalendarEvent.ts`.  The ISO `dateTime` string is
abstracted by the instant it parses to (`new Date(s).getTime()`, epoch
milliseconds); the `timeZone` field is never read and is elided. -/
structure DateTimeTimeZone where
  dateTime : Int
deriving DecidableEq, Repr

/-- `GraphCalendarEvent` from `CalendarEvent.ts` (fields the core reads;
`body`, `isAllDay` and `webLink` are never read by the verified code paths).
`organizer` is the inner `emailAddress` record (the single-field wrapper is
flattened). -/
structure GraphCalendarEvent where
  id : String
  subject : String
  bodyPreview : String
  start : DateTimeTimeZone
  «end» : DateTimeTimeZone
  organizer : EmailAddress
  attendees : List Attendee
  isCancelled : Bool
deriving DecidableEq, Repr

/-- `MeetingAnalysis` from `LLMTypes.ts`.  `category` is kept as a string;
`llmService.analyzeMeeting` validates it against `validCategories`. -/
structure MeetingAnalysis where
  summary : String
  category : String
  actionItems : List String
  keyTopics : List String
deriving DecidableEq, Repr

/-- The shared context bag (`AgentContext` in `AgentTypes.ts`), restricted to
the documented keys the pipeline threads between agents (`meetings`,
`analysisResults`, `executiveSummary`, `startDate`, `endDate`).
`analysisResults` is a JS `Map` modelled as an insertion-ordered
association list. -/
structure SharedContext where
  meetings : List GraphCalendarEvent := []
  analysisResults : List (String × MeetingAnalysis) := []
  executiveSummary : String := ""
  startDate : Option Int := none
  endDate : Option Int := none
deriving DecidableEq, Repr

/-- `AgentResponse` from `AgentTypes.ts`. `data` is the context snapshot a
successful run returns. -/
structure AgentResponse where
  success : Bool
  message : String
  data : Option SharedContext := none
  error : Option String := none
deriving DecidableEq, Repr

/-- One model query outcome, as observed by `BaseAgent.run`:
`fail` models a thrown `callLLM` (non-2xx response, network failure or a
malformed response body); `reply` models the parsed assistant message, with
`tool_calls` normalised to a list (absent = `[]`). -/
inductive LLMResult
  | fail (errorMessage : String)
  | reply (content : Option String) (tool_calls : List ToolCall)
deriving DecidableEq, Repr

/-- Environment of one `BaseAgent.run` invocation.  `llm i` is the outcome of
the i-th model query of this run (0-indexed); `toolExec tc ctx` is the
combined outcome of `JSON.parse(tc.arguments)` + `executeTool` + the handler
body (which may read and write the agent context), with `ToolOutcome.err`
covering every thrown error. -/
structure AgentEnv where
  llm : Nat → LLMResult
  toolExec : ToolCall → SharedContext → ToolOutcome × SharedContext

/-- Mutable state of a `BaseAgent`: `conversationHistory` and `context`
(`BaseAgent.ts` lines 18-27). -/
structure BaseAgentState where
  conversationHistory : List AgentMessage
  context : SharedContext
deriving DecidableEq, Repr

/-- The system message pushed by the `BaseAgent` constructor (lines 31-35). -/
def systemMessage (systemPrompt : String) : AgentMessage :=
  { role := Role.system, content := MsgContent.text systemPrompt }

/-- The user message pushed at the start of `run` (lines 150-154). -/
def userMessage (s : String) : AgentMessage :=
  { role := Role.user, content := MsgContent.text s }

/-- The assistant message pushed after `callLLM` (lines 136-140, 164). -/
def assistantMessage (content : Option String) (tool_calls : List ToolCall) : AgentMessage :=
  { role := Role.assistant,
    content := match content with
      | some s => MsgContent.text s
      | none => MsgContent.null,
    tool_calls := tool_calls }

/-- The tool-result message pushed for one tool call (lines 180-184 on
success, 189-193 on error), tagged with the call's id in both branches. -/
def toolMessage (tc : ToolCall) (o : ToolOutcome) : AgentMessage :=
  { role := Role.tool, content := MsgContent.toolResult o, tool_call_id := some tc.id }

/-- The `for (const toolCall of assistantMessage.tool_calls)` loop of
`BaseAgent.run` (lines 169-195): each call produces exactly one tool-result
message, and context updates thread left to right. -/
def processBatch (env : AgentEnv) : SharedContext → List ToolCall → List AgentMessage × SharedContext
  | ctx, [] => ([], ctx)
  | ctx, tc :: rest =>
    let r := env.toolExec tc ctx
    let pr := processBatch env r.2 rest
    (toolMessage tc r.1 :: pr.1, pr.2)

/-- The response returned when the `while` loop exhausts `maxIterations`
(`BaseAgent.run` lines 219-223). -/
def maxIterResponse : AgentResponse :=
  { success := false, message := "Agent reached maximum iterations",
    error := some "Max iterations exceeded" }

/-- Result of one `run` invocation: the post-state, the returned
`AgentResponse`, and the number of model queries issued (instrumentation for
the iteration-count claims; not a field of the source). -/
structure RunResult where
  state : BaseAgentState
  response : AgentResponse
  queries : Nat
deriving Repr

/-- The `while (iterations < maxIterations)` loop of `BaseAgent.run`
(lines 158-216).  `q` is the index of the next model query, `fuel` the number
of remaining iterations (`maxIterations - iterations`).  A thrown `callLLM`
is caught by the outer `catch` and returns failure; a reply without tool
calls returns success; a reply with tool calls appends the assistant message
and one tool message per call, then continues. -/
def runLoop (env : AgentEnv) : Nat → Nat → List AgentMessage → SharedContext → RunResult
  | _, 0, hist, ctx => ⟨⟨hist, ctx⟩, maxIterResponse, 0⟩
  | q, fuel + 1, hist, ctx =>
    match env.llm q with
    | LLMResult.fail e =>
      ⟨⟨hist, ctx⟩, { success := false, message := "Agent failed", error := some e }, 1⟩
    | LLMResult.reply content calls =>
      if calls = [] then
        ⟨⟨hist ++ [assistantMessage content calls], ctx⟩,
          { success := true, message := jsOrOpt content "Task completed", data := some ctx }, 1⟩
      else
        let pb := processBatch env ctx calls
        let r := runLoop env (q + 1) fuel (hist ++ assistantMessage content calls :: pb.1) pb.2
        ⟨r.state, r.response, r.queries + 1⟩

/-- `BaseAgent.run(userMessage)` (lines 146-224): push the user message, then
drive the loop with `maxIterations` iterations of fuel. -/
def runAgent (env : AgentEnv) (userMsg : String) (st : BaseAgentState)
    (maxIterations : Nat) : RunResult :=
  runLoop env 0 maxIterations (st.conversationHistory ++ [userMessage userMsg]) st.context

/-- Agent configuration (`AgentConfig` in `AgentTypes.ts`), restricted to the
fields the verified code paths read. -/
structure AgentConfig where
  name : String
  systemPrompt : String
  maxIterations : Option Nat := none
deriving DecidableEq, Repr

/-- The fresh base-agent state built by the `BaseAgent` constructor
(lines 24-36): empty context, history holding only the system prompt. -/
def mkBaseAgent (cfg : AgentConfig) : BaseAgentState :=
  { conversationHistory := [systemMessage cfg.systemPrompt], context := {} }

/-- `BaseAgent.reset()` (lines 229-237): history becomes just the system
message and the context is emptied; the previous state is discarded. -/
def baseReset (cfg : AgentConfig) (_st : BaseAgentState) : BaseAgentState :=
  { conversationHistory := [systemMessage cfg.systemPrompt], context := {} }

/-- `hay` starts with `needle` (on character lists). -/
def startsWithChars : List Char → List Char → Bool
  | _, [] => true
  | [], _ :: _ => false
  | h :: hs, n :: ns => h = n && startsWithChars hs ns

/-- `needle` occurs as a contiguous substring of `hay` (character lists). -/
def includesChars : List Char → List Char → Bool
  | [], needle => needle.isEmpty
  | h :: hs, needle => startsWithChars (h :: hs) needle || includesChars hs needle

/-- JS `String.prototype.includes`. -/
def jsIncludes (s sub : String) : Bool :=
  includesChars s.toList sub.toList

/-- JS `String.prototype.toLowerCase` (ASCII, which is all the routing
keywords and email domains use). -/
def jsToLowerCase (s : String) : String :=
  String.mk (s.toList.map Char.toLower)

/-- `extractDomainFromEmail` from `utils/domainExtractor.ts` (lines 5-11). -/
def extractDomainFromEmail (email : String) : String :=
  if email = "" || !jsIncludes email "@" then ""
  else jsOr (jsToLowerCase ((email.splitOn "@").getD 1 "")) ""

/-- The `personalProviders` list of `extractCompanyFromEmail`. -/
def personalProviders : List String :=
  ["gmail.com", "yahoo.com", "hotmail.com", "outlook.com", "live.com",
   "icloud.com", "aol.com", "protonmail.com", "mail.com"]

/-- `extractCompanyFromEmail` from `utils/domainExtractor.ts` (lines 18-41).
Both the personal-provider branch and the business branch return the domain
unchanged; the source keeps them separate and so does this embedding. -/
def extractCompanyFromEmail (email : String) : String :=
  let domain := extractDomainFromEmail email
  if domain = "" then ""
  else if personalProviders.contains domain then domain
  else domain

/-- JS `[...new Set(l)]`: deduplicate keeping first occurrences, in order. -/
def dedupFirst (seen : List String) : List String → List String
  | [] => []
  | x :: xs =>
    if seen.contains x then dedupFirst seen xs
    else x :: dedupFirst (seen ++ [x]) xs

/-- `getUniqueCompanies` from `utils/domainExtractor.ts` (lines 46-52). -/
def getUniqueCompanies (emails : List String) : List String :=
  dedupFirst [] ((emails.map extractCompanyFromEmail).filter (fun c => c ≠ ""))

/-- `MeetingReportRow` from `CalendarEvent.ts`. -/
structure MeetingReportRow where
  meetingName : String
  date : String
  startTime : String
  endTime : String
  organizerName : String
  organizerEmail : String
  organizerCompany : String
  attendees : String
  attendeeEmails : String
  attendeeCompanies : String
  agenda : String
deriving DecidableEq, Repr

/-- The `Date`-based formatters of `excelService.ts` (`formatDate`,
`formatTime`, lines 8-23).  They call into the JS `Date` library
(`toISOString`, `toLocaleTimeString`), which is an external collaborator, so
they are oracle parameters over the parsed instant. -/
structure DateFns where
  formatDate : Int → String
  formatTime : Int → String

/-- `hasZeroDuration` from `excelService.ts` (lines 28-32): the parsed start
instant equals the parsed end instant. -/
def hasZeroDuration (event : GraphCalendarEvent) : Bool :=
  event.start.dateTime = event.«end».dateTime

/-- The `.map` body of `transformEventsToReportRows`
(`excelService.ts` lines 41-65). -/
def toReportRow (fmt : DateFns) (event : GraphCalendarEvent) : MeetingReportRow :=
  let attendeeNames :=
    String.intercalate ", "
      ((event.attendees.map (fun a => a.emailAddress.name)).filter (fun n => n ≠ ""))
  let attendeeEmails :=
    (event.attendees.map (fun a => a.emailAddress.address)).filter (fun e => e ≠ "")
  { meetingName := jsOr event.subject "(No subject)",
    date := fmt.formatDate event.start.dateTime,
    startTime := fmt.formatTime event.start.dateTime,
    endTime := fmt.formatTime event.«end».dateTime,
    organizerName := event.organizer.name,
    organizerEmail := event.organizer.address,
    organizerCompany := extractCompanyFromEmail event.organizer.address,
    attendees := attendeeNames,
    attendeeEmails := String.intercalate ", " attendeeEmails,
    attendeeCompanies := String.intercalate ", " (getUniqueCompanies attendeeEmails),
    agenda := event.bodyPreview.take 500 }

/-- `transformEventsToReportRows` from `excelService.ts` (lines 37-67):
drop cancelled events, drop zero-duration events, map the rest to rows. -/
def transformEventsToReportRows (fmt : DateFns) (events : List GraphCalendarEvent) :
    List MeetingReportRow :=
  (((events.filter (fun e => !e.isCancelled)).filter
      (fun e => !hasZeroDuration e)).map (toReportRow fmt))

/-- Outcome of the `generate_excel_report` tool handler of `ReportAgent.ts`
(lines 112-239): the guard result for an empty meetings context, or a
generated workbook with `rowCount = this.reportData.length` rows (the XLSX
workbook assembly and download are external collaborators and elided;
`reportData` has exactly one entry per transformed base row). -/
inductive ExcelReportOutcome
  | noMeetings
  | generated (rowCount : Nat)
deriving DecidableEq, Repr

/-- The control flow of the `generate_excel_report` handler that decides
between the "no meetings" error return and a generated report. -/
def generateExcelReportTool (fmt : DateFns) (meetings : List GraphCalendarEvent) :
    ExcelReportOutcome :=
  if meetings.length = 0 then ExcelReportOutcome.noMeetings
  else ExcelReportOutcome.generated (transformEventsToReportRows fmt meetings).length

/-- The markdown-fence stripping of `analyzeMeeting`
(`llmService.ts` lines 121-130). -/
def stripFences (response : String) : String :=
  let s0 := response.trim
  let s1 := if s0.startsWith "```json" then s0.drop 7 else s0
  let s2 := if s1.startsWith "```" then s1.drop 3 else s1
  let s3 := if s2.endsWith "```" then s2.dropRight 3 else s2
  s3.trim

/-- `validCategories` from `analyzeMeeting` (`llmService.ts` lines 135-146). -/
def validCategories : List String :=
  ["internal-team", "external-client", "one-on-one", "all-hands", "interview",
   "training", "review", "planning", "social", "other"]

/-- External collaborators of `analyzeMeeting`: `chat ev` is the
`chatCompletion` outcome for the prompt built from `ev` (`Except.error` for a
thrown transport/configuration error), `parse s` is `JSON.parse(s) as
MeetingAnalysis` (`none` when `JSON.parse` throws). -/
structure AnalysisLLM where
  chat : GraphCalendarEvent → Except String String
  parse : String → Option MeetingAnalysis

/-- The default analysis substituted by the `catch` of `analyzeMeeting`
(`llmService.ts` lines 154-160). -/
def defaultAnalysis (event : GraphCalendarEvent) : MeetingAnalysis :=
  { summary := jsOr (event.bodyPreview.take 100) "No description available",
    category := "other",
    actionItems := [],
    keyTopics := [] }

/-- `analyzeMeeting` from `llmService.ts` (lines 87-162): call the model,
strip markdown fences, parse the JSON, force an unknown category to
`"other"`; any thrown error yields `defaultAnalysis`. -/
def analyzeMeeting (llm : AnalysisLLM) (event : GraphCalendarEvent) : MeetingAnalysis :=
  match llm.chat event with
  | Except.error _ => defaultAnalysis event
  | Except.ok response =>
    match llm.parse (stripFences response) with
    | none => defaultAnalysis event
    | some analysis =>
      if validCategories.contains analysis.category then analysis
      else { analysis with category := "other" }

/-- JS `Map.prototype.set` on the insertion-ordered association list:
overwrite in place if the key exists, otherwise append. -/
def mapSet (m : List (String × MeetingAnalysis)) (k : String) (v : MeetingAnalysis) :
    List (String × MeetingAnalysis) :=
  if m.any (fun p => p.1 = k) then
    m.map (fun p => if p.1 = k then (k, v) else p)
  else m ++ [(k, v)]

/-- The `for (const meeting of meetings)` loop of the `analyze_all_meetings`
tool handler (`AnalysisAgent.ts` lines 169-185): skip cancelled meetings,
store each successful analysis under the meeting id and count it, swallow a
thrown `analyzeMeeting` and continue.  `analyze m` is the awaited call, which
the handler's `try`/`catch` treats as fallible.  The rate-limiting delay is
timing only and is elided. -/
def analyzeAllLoop (analyze : GraphCalendarEvent → Except String MeetingAnalysis) :
    List GraphCalendarEvent → List (String × MeetingAnalysis) → Nat →
      List (String × MeetingAnalysis) × Nat
  | [], results, analyzed => (results, analyzed)
  | m :: rest, results, analyzed =>
    if m.isCancelled then analyzeAllLoop analyze rest results analyzed
    else
      match analyze m with
      | Except.ok a => analyzeAllLoop analyze rest (mapSet results m.id a) (analyzed + 1)
      | Except.error _ => analyzeAllLoop analyze rest results analyzed

/-- Return value of the `analyze_all_meetings` handler: the `success: false`
"no meetings" guard, or `success: true` with `totalAnalyzed` (the `categories`
and `totalActionItems` summary statistics are derived output and elided). -/
inductive AnalyzeAllResult
  | noMeetings
  | analyzed (totalAnalyzed : Nat)
deriving DecidableEq, Repr

/-- The `analyze_all_meetings` tool handler (`AnalysisAgent.ts`
lines 156-205): guard on an empty meetings context, else run the loop over
the agent's current `analysisResults` map and report how many analyses
succeeded. Returns the handler result together with the updated map. -/
def analyzeAllMeetings (analyze : GraphCalendarEvent → Except String MeetingAnalysis)
    (meetings : List GraphCalendarEvent) (results0 : List (String × MeetingAnalysis)) :
    AnalyzeAllResult × List (String × MeetingAnalysis) :=
  if meetings.length = 0 then (AnalyzeAllResult.noMeetings, results0)
  else
    let r := analyzeAllLoop analyze meetings results0 0
    (AnalyzeAllResult.analyzed r.2, r.1)

/-- The `SYSTEM_PROMPT` of `CalendarAgent.ts` (lines 60-72). -/
def calendarSystemPrompt : String :=
  "You are a Calendar Agent specialized in fetching and processing Microsoft Outlook calendar data.\n\nYour capabilities:\n1. Fetch calendar events for a specified date range\n2. Filter meetings by various criteria\n3. Provide meeting statistics\n\nWhen asked to get meeting data:\n1. First use fetch_calendar_events to retrieve the data\n2. Apply any requested filters\n3. Provide a summary of what was found\n\nAlways be helpful and provide clear information about the meetings found."

/-- The `SYSTEM_PROMPT` of `AnalysisAgent.ts` (lines 82-95). -/
def analysisSystemPrompt : String :=
  "You are an Analysis Agent specialized in analyzing meeting data using AI.\n\nYour capabilities:\n1. Analyze individual meetings to extract summaries, categories, and action items\n2. Batch analyze multiple meetings\n3. Generate executive summaries\n4. Categorize meetings and extract insights\n\nWhen asked to analyze meetings:\n1. Use analyze_all_meetings for batch processing\n2. Use generate_executive_summary for an overview\n3. Provide insights about meeting patterns and action items\n\nAlways provide clear, actionable insights from the meeting data."

/-- The `SYSTEM_PROMPT` of `ReportAgent.ts` (lines 59-73). -/
def reportSystemPrompt : String :=
  "You are a Report Agent specialized in generating Excel reports from meeting data.\n\nYour capabilities:\n1. Generate Excel reports with meeting details\n2. Include LLM analysis (summaries, categories, action items)\n3. Provide report previews\n4. Add executive summaries\n\nWhen generating reports:\n1. First check if meeting data is available in context\n2. Check if analysis results are available (optional)\n3. Generate the report with appropriate columns\n4. Provide a summary of what was included\n\nAlways confirm successful report generation with the user."

/-- The `AgentConfig` built in the `CalendarAgent` constructor (lines 79-89). -/
def calendarAgentConfig : AgentConfig :=
  { name := "CalendarAgent", systemPrompt := calendarSystemPrompt, maxIterations := some 5 }

/-- The `AgentConfig` built in the `AnalysisAgent` constructor (lines 101-111). -/
def analysisAgentConfig : AgentConfig :=
  { name := "AnalysisAgent", systemPrompt := analysisSystemPrompt, maxIterations := some 10 }

/-- The `AgentConfig` built in the `ReportAgent` constructor (lines 86-96). -/
def reportAgentConfig : AgentConfig :=
  { name := "ReportAgent", systemPrompt := reportSystemPrompt, maxIterations := some 5 }

/-- `CalendarAgent` instance state: the inherited `BaseAgent` state plus the
private fields `meetings` and `userDomain` (`CalendarAgent.ts` lines 74-77). -/
structure CalendarAgentState where
  base : BaseAgentState
  meetings : List GraphCalendarEvent
  userDomain : String
deriving DecidableEq, Repr

/-- A freshly constructed `CalendarAgent`. -/
def mkCalendarAgent : CalendarAgentState :=
  { base := mkBaseAgent calendarAgentConfig, meetings := [], userDomain := "" }

/-- `CalendarAgent` inherits `BaseAgent.reset` unchanged: the private
`meetings` and `userDomain` fields are not touched by `reset()`. -/
def calendarAgentReset (s : CalendarAgentState) : CalendarAgentState :=
  { s with base := baseReset calendarAgentConfig s.base }

/-- `AnalysisAgent` instance state: inherited state plus the private fields
`analysisResults` and `executiveSummary` (`AnalysisAgent.ts` lines 97-99). -/
structure AnalysisAgentState where
  base : BaseAgentState
  analysisResults : List (String × MeetingAnalysis)
  executiveSummary : String
deriving DecidableEq, Repr

/-- A freshly constructed `AnalysisAgent`. -/
def mkAnalysisAgent : AnalysisAgentState :=
  { base := mkBaseAgent analysisAgentConfig, analysisResults := [], executiveSummary := "" }

/-- `AnalysisAgent.reset` (lines 283-287): `super.reset()` plus clearing
`analysisResults` and `executiveSummary`. -/
def analysisAgentReset (s : AnalysisAgentState) : AnalysisAgentState :=
  { base := baseReset analysisAgentConfig s.base, analysisResults := [], executiveSummary := "" }

/-- An enhanced report row (`ReportAgent.ts` lines 76-81): the base row plus
optional analysis columns. -/
structure EnhancedReportRow extends MeetingReportRow where
  aiSummary : Option String := none
  category : Option String := none
  actionItems : Option String := none
  keyTopics : Option String := none
deriving DecidableEq, Repr

/-- `ReportAgent` instance state: inherited state plus the private field
`reportData` (`ReportAgent.ts` line 84). -/
structure ReportAgentState where
  base : BaseAgentState
  reportData : List EnhancedReportRow
deriving DecidableEq, Repr

/-- A freshly constructed `ReportAgent`. -/
def mkReportAgent : ReportAgentState :=
  { base := mkBaseAgent reportAgentConfig, reportData := [] }

/-- `ReportAgent` inherits `BaseAgent.reset` unchanged: the private
`reportData` field is not touched by `reset()`. -/
def reportAgentReset (s : ReportAgentState) : ReportAgentState :=
  { s with base := baseReset reportAgentConfig s.base }

/-- `AgentOrchestrator` state: the three agents and `sharedContext`
(`AgentOrchestrator.ts` lines 326-331; the MSAL instance and the event
handler list are external plumbing). -/
structure OrchestratorState where
  calendarAgent : CalendarAgentState
  analysisAgent : AnalysisAgentState
  reportAgent : ReportAgentState
  sharedContext : SharedContext
deriving DecidableEq, Repr

/-- A freshly constructed `AgentOrchestrator` (constructor lines 333-350). -/
def mkOrchestrator : OrchestratorState :=
  { calendarAgent := mkCalendarAgent, analysisAgent := mkAnalysisAgent,
    reportAgent := mkReportAgent, sharedContext := {} }

/-- `AgentOrchestrator.reset` (lines 545-550): reset each agent and empty
`sharedContext`. -/
def orchestratorReset (s : OrchestratorState) : OrchestratorState :=
  { calendarAgent := calendarAgentReset s.calendarAgent,
    analysisAgent := analysisAgentReset s.analysisAgent,
    reportAgent := reportAgentReset s.reportAgent,
    sharedContext := {} }

/-- The pipeline stages of `generateReport`, used to trace which agent runs
were invoked (instrumentation for the "stage never invoked" claims). -/
inductive Stage
  | calendar
  | analysis
  | summary
  | report
deriving DecidableEq, Repr

/-- The aggregate result of `generateReport` (`AgentOrchestrator.ts`
lines 389-395); `filename`/`downloadUrl` are copied from the report agent's
opaque `data` and are elided. -/
structure GenResult where
  success : Bool
  message : String
  error : Option String := none
deriving DecidableEq, Repr

/-- Environment of one `generateReport` call: the observable outcomes of the
collaborating agent runs and service queries, in the order the orchestrator
consumes them. -/
structure OrchEnv where
  /-- result of `calendarAgent.run('Fetch all calendar events ...')` -/
  calendarResult : AgentResponse
  /-- `calendarAgent['context']` after that run (spread into `sharedContext`) -/
  calendarContext : SharedContext
  /-- `calendarAgent.getMeetings()` after that run -/
  calendarMeetings : List GraphCalendarEvent
  /-- `isLLMConfigured()` -/
  llmConfigured : Bool
  /-- result of `analysisAgent.run('Analyze all meetings ...')` -/
  analysisResult : AgentResponse
  /-- `analysisAgent.getAnalysisResults()` after that run -/
  analysisResultsAfter : List (String × MeetingAnalysis)
  /-- result of `analysisAgent.run('Generate an executive summary ...')` (unused by control flow) -/
  summaryResult : AgentResponse
  /-- `analysisAgent.getExecutiveSummary()` after that run -/
  executiveSummaryAfter : String
  /-- result of `reportAgent.run('Generate an Excel report ...')` -/
  reportResult : AgentResponse

/-- Output of `generateReport` plus instrumentation: the ordered list of
agent-run invocations issued, and the `SharedContext` handed to the report
agent when Stage 3 was reached. -/
structure GenReportOutcome where
  result : GenResult
  invoked : List Stage
  reportStageContext : Option SharedContext
deriving DecidableEq, Repr

/-- `AgentOrchestrator.generateReport` (lines 389-492).  Stage 1 failure
throws into the catch (message `'Failed to generate report'`); zero fetched
meetings short-circuit with the distinguished no-data result; Stage 2 runs
only when requested and the LLM is configured, and its failure is non-fatal;
Stage 3 failure throws into the catch. -/
def generateReport (env : OrchEnv) (includeAnalysis includeExecutiveSummary : Bool) :
    GenReportOutcome :=
  if !env.calendarResult.success then
    { result := { success := false, message := "Failed to generate report",
                  error := some (jsOrOpt env.calendarResult.error "Failed to fetch calendar data") },
      invoked := [Stage.calendar], reportStageContext := none }
  else
    let shared := env.calendarContext
    let meetings := env.calendarMeetings
    if meetings.length = 0 then
      { result := { success := false, message := "No meetings found in the specified date range" },
        invoked := [Stage.calendar], reportStageContext := none }
    else
      let stage2 : SharedContext × List Stage :=
        if includeAnalysis && env.llmConfigured then
          if env.analysisResult.success then
            let s1 := { shared with analysisResults := env.analysisResultsAfter }
            if includeExecutiveSummary then
              ({ s1 with executiveSummary := env.executiveSummaryAfter },
               [Stage.analysis, Stage.summary])
            else (s1, [Stage.analysis])
          else (shared, [Stage.analysis])
        else (shared, [])
      if env.reportResult.success then
        { result := { success := true,
                      message := "Report generated with " ++ toString meetings.length ++ " meetings" },
          invoked := Stage.calendar :: stage2.2 ++ [Stage.report],
          reportStageContext := some stage2.1 }
      else
        { result := { success := false, message := "Failed to generate report",
                      error := some (jsOrOpt env.reportResult.error "Failed to generate report") },
          invoked := Stage.calendar :: stage2.2 ++ [Stage.report],
          reportStageContext := some stage2.1 }

/-- Which agent `runCommand` dispatches to. -/
inductive Route
  | calendar
  | analysis
  | report
deriving DecidableEq, Repr

/-- The acquisition-keyword test of `runCommand` (lines 505-509). -/
def hasCalendarKeyword (lowerCommand : String) : Bool :=
  jsIncludes lowerCommand "fetch" || jsIncludes lowerCommand "calendar" ||
    jsIncludes lowerCommand "meetings"

/-- The analysis-keyword test of `runCommand` (lines 515-520). -/
def hasAnalysisKeyword (lowerCommand : String) : Bool :=
  jsIncludes lowerCommand "analyz" || jsIncludes lowerCommand "summar" ||
    jsIncludes lowerCommand "action item" || jsIncludes lowerCommand "categor"

/-- The report-keyword test of `runCommand` (lines 528-533). -/
def hasReportKeyword (lowerCommand : String) : Bool :=
  jsIncludes lowerCommand "report" || jsIncludes lowerCommand "excel" ||
    jsIncludes lowerCommand "export" || jsIncludes lowerCommand "download"

/-- The routing logic of `AgentOrchestrator.runCommand` (lines 497-540):
lower-case the command, test acquisition keywords first, then analysis
keywords, then report keywords, defaulting to the calendar agent. -/
def routeCommand (command : String) : Route :=
  let lowerCommand := jsToLowerCase command
  if hasCalendarKeyword lowerCommand then Route.calendar
  else if hasAnalysisKeyword lowerCommand then Route.analysis
  else if hasReportKeyword lowerCommand then Route.report
  else Route.calendar

/-- A model query outcome that requests at least one tool call
(`assistantMessage.tool_calls && assistantMessage.tool_calls.length > 0`). -/
def requestsTools : LLMResult → Bool
  | LLMResult.fail _ => false
  | LLMResult.reply _ calls => !calls.isEmpty

/-- A history message that encodes a failed tool call
(`JSON.stringify` of the error object, `BaseAgent.run` lines 189-193). -/
def isErrorToolMessage (m : AgentMessage) : Bool :=
  match m.content with
  | MsgContent.toolResult (ToolOutcome.err _) => true
  | _ => false

/-- A history message that encodes a successful tool call
(`JSON.stringify(result)`, `BaseAgent.run` lines 180-184). -/
def isOkToolMessage (m : AgentMessage) : Bool :=
  match m.content with
  | MsgContent.toolResult (ToolOutcome.ok _) => true
  | _ => false

/-- All tool-call ids emitted by assistant messages of a history, appended to
the accumulator `em` in order. -/
def emittedIds (em : List String) : List AgentMessage → List String
  | [] => em
  | m :: rest =>
    emittedIds (if m.role = Role.assistant then em ++ m.tool_calls.map (fun tc => tc.id) else em)
      rest

/-- Specification predicate for the history invariant: walking the history
with accumulator `em` of already-emitted tool-call ids, every `tool` message
must carry a `tool_call_id` that was emitted by an earlier assistant message
(or was in `em` to begin with). -/
def toolRefsOk (em : List String) : List AgentMessage → Bool
  | [] => true
  | m :: rest =>
    (if m.role = Role.tool then
      match m.tool_call_id with
      | some id => em.contains id
      | none => false
    else true)
      && toolRefsOk
        (if m.role = Role.assistant then em ++ m.tool_calls.map (fun tc => tc.id) else em) rest

/-- Conversation histories reachable from a freshly constructed agent by any
sequence of `run()` (with arbitrary model/tool behaviour and arbitrary
context at the start of the run) and `reset()` calls. -/
inductive ReachableHistory (prompt : String) : List AgentMessage → Prop
  | init : ReachableHistory prompt [systemMessage prompt]
  | runStep (env : AgentEnv) (userMsg : String) (n : Nat) (ctx : SharedContext)
      {h : List AgentMessage} : ReachableHistory prompt h →
      ReachableHistory prompt (runAgent env userMsg ⟨h, ctx⟩ n).state.conversationHistory
  | resetStep {h : List AgentMessage} : ReachableHistory prompt h →
      ReachableHistory prompt [systemMessage prompt]

/-! Concrete fixtures used by the closed witness and counterexample
theorems. -/

/-- A small agent configuration used as concrete input data. -/
def cfgTest : AgentConfig :=
  { name := "TestAgent", systemPrompt := "You are a test agent.", maxIterations := some 2 }

/-- A fresh agent built from the test configuration. -/
def st0 : BaseAgentState := mkBaseAgent cfgTest

/-- Concrete tool calls. -/
def tcA : ToolCall := { id := "call-a", name := "get_meeting_stats", argumentsJson := "" }

/-- A second concrete tool call. -/
def tcB : ToolCall := { id := "call-b", name := "preview_report", argumentsJson := "" }

/-- A model that requests the same tool on every query; the tool succeeds. -/
def envAlwaysTools : AgentEnv :=
  { llm := fun _ => LLMResult.reply none [tcA],
    toolExec := fun _ ctx => (ToolOutcome.ok "42", ctx) }

/-- A model that requests a batch of two tools, one of which fails, and then
finishes on the second query. -/
def envOneErr : AgentEnv :=
  { llm := fun i =>
      if i = 0 then LLMResult.reply none [tcA, tcB] else LLMResult.reply (some "done") [],
    toolExec := fun tc ctx =>
      if tc.id = "call-a" then (ToolOutcome.err "boom", ctx) else (ToolOutcome.ok "ok", ctx) }

/-- A transport that fails on every query. -/
def envFail : AgentEnv :=
  { llm := fun _ => LLMResult.fail "network down",
    toolExec := fun _ ctx => (ToolOutcome.ok "x", ctx) }

/-- Concrete calendar events. -/
def evA : GraphCalendarEvent :=
  { id := "m1", subject := "Quarterly planning", bodyPreview := "Quarterly planning agenda",
    start := ⟨0⟩, «end» := ⟨3600000⟩, organizer := { name := "Ann", address := "ann@acme.com" },
    attendees := [], isCancelled := false }

/-- A second concrete event. -/
def evB : GraphCalendarEvent :=
  { evA with id := "m2", subject := "Design review" }

/-- A third concrete event. -/
def evC : GraphCalendarEvent :=
  { evA with id := "m3", subject := "Interview" }

/-- A cancelled concrete event. -/
def evCancelled : GraphCalendarEvent :=
  { evA with id := "m4", subject := "Standup", isCancelled := true }

/-- A concrete event whose body preview is empty. -/
def evEmptyBody : GraphCalendarEvent :=
  { evA with id := "m5", bodyPreview := "" }

/-- Trivial date formatters (their output never matters to the claims). -/
def fmt0 : DateFns :=
  { formatDate := fun _ => "", formatTime := fun _ => "" }

/-- An analysis LLM collaborator whose chat call always throws. -/
def llmFailEnv : AnalysisLLM :=
  { chat := fun _ => Except.error "LLM API error: 500 - boom",
    parse := fun _ => none }

/-- An `analyzeMeeting` collaborator that throws on every call. -/
def analyzeThrow : GraphCalendarEvent → Except String MeetingAnalysis :=
  fun _ => Except.error "boom"

/-- A successful agent response fixture. -/
def respOk : AgentResponse := { success := true, message := "done" }

/-- Orchestrator environment: acquisition succeeds with zero records. -/
def orchEnvC3 : OrchEnv :=
  { calendarResult := respOk, calendarContext := {}, calendarMeetings := [],
    llmConfigured := true, analysisResult := respOk, analysisResultsAfter := [],
    summaryResult := respOk, executiveSummaryAfter := "", reportResult := respOk }

/-- Orchestrator environment: acquisition succeeds with three records and the
analysis collaborator throws on every call. -/
def orchEnvC4 : OrchEnv :=
  { calendarResult := respOk, calendarContext := {}, calendarMeetings := [evA, evB, evC],
    llmConfigured := true, analysisResult := respOk,
    analysisResultsAfter := (analyzeAllMeetings analyzeThrow [evA, evB, evC] []).2,
    summaryResult := respOk, executiveSummaryAfter := "", reportResult := respOk }

/-- An orchestrator whose calendar agent has fetched one meeting. -/
def sC6 : OrchestratorState :=
  { mkOrchestrator with calendarAgent := { mkCalendarAgent with meetings := [evA] } }

theorem assistantMessage_role (c : Option String) (calls : List ToolCall) :
    (assistantMessage c calls).role = Role.assistant := rfl

theorem assistantMessage_tool_calls (c : Option String) (calls : List ToolCall) :
    (assistantMessage c calls).tool_calls = calls := rfl

theorem processBatch_length (env : AgentEnv) (calls : List ToolCall) :
    ∀ ctx, (processBatch env ctx calls).1.length = calls.length := by
  induction calls with
  | nil => intro ctx; rfl
  | cons tc rest ih => intro ctx; simp [processBatch, ih]

theorem processBatch_map_id (env : AgentEnv) (calls : List ToolCall) :
    ∀ ctx, (processBatch env ctx calls).1.map (fun m => m.tool_call_id) =
      calls.map (fun tc => some tc.id) := by
  induction calls with
  | nil => intro ctx; rfl
  | cons tc rest ih => intro ctx; simp [processBatch, toolMessage, ih]

theorem processBatch_shape (env : AgentEnv) (calls : List ToolCall) :
    ∀ ctx m, m ∈ (processBatch env ctx calls).1 →
      m.role = Role.tool ∧ (∃ o, m.content = MsgContent.toolResult o) ∧
        ∃ tc, tc ∈ calls ∧ m.tool_call_id = some tc.id := by
  induction calls with
  | nil => intro ctx m hm; simp [processBatch] at hm
  | cons tc rest ih =>
    intro ctx m hm
    simp only [processBatch] at hm
    rcases List.mem_cons.1 hm with h | h
    · subst h
      exact ⟨rfl, ⟨(env.toolExec tc ctx).1, rfl⟩, tc, List.mem_cons_self tc rest, rfl⟩
    · obtain ⟨hrole, hcontent, tc', htc', hid⟩ := ih (env.toolExec tc ctx).2 m h
      exact ⟨hrole, hcontent, tc', List.mem_cons_of_mem tc htc', hid⟩

theorem processBatch_counts (env : AgentEnv) (calls : List ToolCall) :
    ∀ ctx, (processBatch env ctx calls).1.countP isErrorToolMessage +
      (processBatch env ctx calls).1.countP isOkToolMessage = calls.length := by
  induction calls with
  | nil => intro ctx; rfl
  | cons tc rest ih =>
    intro ctx
    cases hout : (env.toolExec tc ctx).1 <;>
      simp [processBatch, List.countP_cons, isErrorToolMessage, isOkToolMessage, toolMessage,
        hout, ← ih (env.toolExec tc ctx).2] <;>
      omega

theorem toolRefsOk_append (h1 : List AgentMessage) :
    ∀ em h2, toolRefsOk em (h1 ++ h2) =
      (toolRefsOk em h1 && toolRefsOk (emittedIds em h1) h2) := by
  induction h1 with
  | nil => intro em h2; simp [toolRefsOk, emittedIds]
  | cons m h1 ih => intro em h2; simp [toolRefsOk, emittedIds, ih, Bool.and_assoc]

theorem toolRefsOk_of_tool_ids (msgs : List AgentMessage) :
    ∀ em, (∀ m ∈ msgs, m.role = Role.tool ∧
        ∃ id, m.tool_call_id = some id ∧ em.contains id = true) →
      toolRefsOk em msgs = true := by
  induction msgs with
  | nil => intro em _; rfl
  | cons m rest ih =>
    intro em h
    obtain ⟨hrole, id, hid, hmem⟩ := h m (List.mem_cons_self m rest)
    have hmem' : id ∈ em := by simpa using hmem
    have hrest := ih em (fun m' hm' => h m' (List.mem_cons_of_mem m hm'))
    simp [toolRefsOk, hrole, hid, hmem', hrest]

theorem toolRefsOk_assistant_batch (env : AgentEnv) (content : Option String)
    (calls : List ToolCall) (ctx : SharedContext) (em : List String) :
    toolRefsOk em (assistantMessage content calls :: (processBatch env ctx calls).1) = true := by
  simp only [toolRefsOk, assistantMessage_role, assistantMessage_tool_calls]
  have : toolRefsOk (em ++ calls.map (fun tc => tc.id)) (processBatch env ctx calls).1 = true := by
    apply toolRefsOk_of_tool_ids
    intro m hm
    obtain ⟨hrole, _, tc, htc, hid⟩ := processBatch_shape env calls ctx m hm
    refine ⟨hrole, tc.id, hid, ?_⟩
    simp
    exact Or.inr ⟨tc, htc, rfl⟩
  simp [this]

theorem runLoop_toolRefsOk (env : AgentEnv) :
    ∀ (fuel q : Nat) (hist : List AgentMessage) (ctx : SharedContext) (em : List String),
      toolRefsOk em hist = true →
      toolRefsOk em (runLoop env q fuel hist ctx).state.conversationHistory = true := by
  intro fuel
  induction fuel with
  | zero => intro q hist ctx em h; simpa [runLoop] using h
  | succ fuel ih =>
    intro q hist ctx em h
    cases hllm : env.llm q with
    | fail e => simpa [runLoop, hllm] using h
    | reply content calls =>
      by_cases hc : calls = []
      · subst hc
        have hh : (runLoop env q (fuel + 1) hist ctx).state.conversationHistory =
            hist ++ [assistantMessage content []] := by
          simp [runLoop, hllm]
        rw [hh, toolRefsOk_append]
        simp [h, toolRefsOk, assistantMessage_role]
      · simp only [runLoop, hllm, if_neg hc]
        apply ih
        rw [toolRefsOk_append]
        simp [h, toolRefsOk_assistant_batch]

theorem runLoop_tail (env : AgentEnv) :
    ∀ (fuel q : Nat) (hist : List AgentMessage) (ctx : SharedContext),
      ∃ t, (runLoop env q fuel hist ctx).state.conversationHistory = hist ++ t ∧
        ∀ m ∈ t, m.role = Role.assistant ∨
          (m.role = Role.tool ∧ ∃ o, m.content = MsgContent.toolResult o) := by
  intro fuel
  induction fuel with
  | zero => intro q hist ctx; exact ⟨[], by simp [runLoop], by simp⟩
  | succ fuel ih =>
    intro q hist ctx
    cases hllm : env.llm q with
    | fail e => exact ⟨[], by simp [runLoop, hllm], by simp⟩
    | reply content calls =>
      by_cases hc : calls = []
      · subst hc
        refine ⟨[assistantMessage content []], by simp [runLoop, hllm], ?_⟩
        intro m hm
        simp at hm
        subst hm
        exact Or.inl rfl
      · obtain ⟨t, ht, hmem⟩ :=
          ih (q + 1) (hist ++ assistantMessage content calls :: (processBatch env ctx calls).1)
            (processBatch env ctx calls).2
        refine ⟨assistantMessage content calls :: (processBatch env ctx calls).1 ++ t, ?_, ?_⟩
        · simp only [runLoop, hllm, if_neg hc]
          rw [ht]
          simp
        · intro m hm
          have hm' : m = assistantMessage content calls ∨
              m ∈ (processBatch env ctx calls).1 ∨ m ∈ t := by
            simpa using hm
          rcases hm' with hm' | hm' | hm'
          · subst hm'; exact Or.inl rfl
          · obtain ⟨hrole, hcontent, _⟩ := processBatch_shape env calls ctx m hm'
            exact Or.inr ⟨hrole, hcontent⟩
          · exact hmem m hm'

theorem runLoop_trichotomy (env : AgentEnv) :
    ∀ (fuel q : Nat) (hist : List AgentMessage) (ctx : SharedContext),
      ((runLoop env q fuel hist ctx).response.success = true ∧
        (runLoop env q fuel hist ctx).response.error = none) ∨
      ((runLoop env q fuel hist ctx).response.success = false ∧
        (runLoop env q fuel hist ctx).response.message = "Agent failed" ∧
        ∃ e, (runLoop env q fuel hist ctx).response.error = some e) ∨
      (runLoop env q fuel hist ctx).response = maxIterResponse := by
  intro fuel
  induction fuel with
  | zero => intro q hist ctx; exact Or.inr (Or.inr rfl)
  | succ fuel ih =>
    intro q hist ctx
    cases hllm : env.llm q with
    | fail e => exact Or.inr (Or.inl (by simp [runLoop, hllm]))
    | reply content calls =>
      by_cases hc : calls = []
      · subst hc
        exact Or.inl (by simp [runLoop, hllm])
      · simpa only [runLoop, hllm, if_neg hc] using
          ih (q + 1) (hist ++ assistantMessage content calls :: (processBatch env ctx calls).1)
            (processBatch env ctx calls).2

theorem runLoop_always_tools (env : AgentEnv)
    (h : ∀ i, requestsTools (env.llm i) = true) :
    ∀ (fuel q : Nat) (hist : List AgentMessage) (ctx : SharedContext),
      (runLoop env q fuel hist ctx).response = maxIterResponse ∧
        (runLoop env q fuel hist ctx).queries = fuel := by
  intro fuel
  induction fuel with
  | zero => intro q hist ctx; exact ⟨rfl, rfl⟩
  | succ fuel ih =>
    intro q hist ctx
    have hq := h q
    cases hllm : env.llm q with
    | fail e => rw [hllm] at hq; simp [requestsTools] at hq
    | reply content calls =>
      rw [hllm] at hq
      have hc : calls ≠ [] := by
        simp [requestsTools] at hq
        simpa using hq
      have := ih (q + 1) (hist ++ assistantMessage content calls :: (processBatch env ctx calls).1)
        (processBatch env ctx calls).2
      simp only [runLoop, hllm, if_neg hc]
      exact ⟨this.1, by rw [this.2]⟩

theorem analyzeAllLoop_throwing (analyze : GraphCalendarEvent → Except String MeetingAnalysis)
    (h : ∀ m, ∃ e, analyze m = Except.error e) :
    ∀ (ms : List GraphCalendarEvent) (results : List (String × MeetingAnalysis)) (n : Nat),
      analyzeAllLoop analyze ms results n = (results, n) := by
  intro ms
  induction ms with
  | nil => intro results n; rfl
  | cons m rest ih =>
    intro results n
    obtain ⟨e, he⟩ := h m
    by_cases hcanc : m.isCancelled <;> simp [analyzeAllLoop, hcanc, he, ih]

theorem toolRefsOk_cons_tool (em : List String) (m : AgentMessage) (rest : List AgentMessage)
    (h : toolRefsOk em (m :: rest) = true) (hrole : m.role = Role.tool) :
    ∃ id, m.tool_call_id = some id ∧ em.contains id = true := by
  simp only [toolRefsOk, hrole, Bool.and_eq_true] at h
  cases hid : m.tool_call_id with
  | none => rw [hid] at h; simp at h
  | some id =>
    rw [hid] at h
    refine ⟨id, rfl, ?_⟩
    have := h.1
    simpa using this

theorem toolRefsOk_decomp (em : List String) (h1 : List AgentMessage) (m : AgentMessage)
    (h2 : List AgentMessage) (hok : toolRefsOk em (h1 ++ m :: h2) = true)
    (hrole : m.role = Role.tool) :
    ∃ id, m.tool_call_id = some id ∧ (emittedIds em h1).contains id = true := by
  rw [toolRefsOk_append, Bool.and_eq_true] at hok
  exact toolRefsOk_cons_tool (emittedIds em h1) m h2 hok.2 hrole

theorem mem_emittedIds (id : String) (h1 : List AgentMessage) :
    ∀ em, (emittedIds em h1).contains id = true →
      id ∈ em ∨ ∃ a, a ∈ h1 ∧ a.role = Role.assistant ∧
        id ∈ a.tool_calls.map (fun tc => tc.id) := by
  induction h1 with
  | nil =>
    intro em h
    exact Or.inl (by simpa using h)
  | cons m h1 ih =>
    intro em h
    simp only [emittedIds] at h
    rcases ih _ h with hmem | ⟨a, ha, harole, haid⟩
    · by_cases hrole : m.role = Role.assistant
      · rw [if_pos hrole] at hmem
        rcases List.mem_append.1 hmem with hl | hr
        · exact Or.inl hl
        · exact Or.inr ⟨m, List.mem_cons_self m h1, hrole, hr⟩
      · rw [if_neg hrole] at hmem
        exact Or.inl hmem
    · exact Or.inr ⟨a, List.mem_cons_of_mem m ha, harole, haid⟩

/-- C1 counterexample: with `maxIterations = 2` and a model that requests a
tool on every response, `run()` does stop after exactly 2 model queries with
a failure, but neither the returned `message` (`'Agent reached maximum
iterations'`) nor the `error` field (`'Max iterations exceeded'`) is the
string "maximum iterations exceeded" the claim specifies. -/
theorem c1_counterexample :
    (runAgent envAlwaysTools "Fetch my meetings" st0 2).queries = 2 ∧
    (runAgent envAlwaysTools "Fetch my meetings" st0 2).response.success = false ∧
    (runAgent envAlwaysTools "Fetch my meetings" st0 2).response.message ≠
      "maximum iterations exceeded" ∧
    (runAgent envAlwaysTools "Fetch my meetings" st0 2).response.error ≠
      some "maximum iterations exceeded" := by
  decide

/-- C1 (amended): for every agent configured with `maxIterations = N`, if
every model response requests at least one tool call, `run()` returns the
failure result with message `'Agent reached maximum iterations'` and error
`'Max iterations exceeded'` after exactly N model queries, never issuing an
N+1-th query. -/
theorem c1_max_iterations (env : AgentEnv) (userMsg : String) (st : BaseAgentState) (N : Nat)
    (h : ∀ i, requestsTools (env.llm i) = true) :
    (runAgent env userMsg st N).response = maxIterResponse ∧
      (runAgent env userMsg st N).queries = N :=
  runLoop_always_tools env h N 0 (st.conversationHistory ++ [userMessage userMsg]) st.context

/-- C1 witness at a concrete always-tools environment and N = 3. -/
theorem c1_witness :
    (runAgent envAlwaysTools "Fetch my meetings" st0 3).response = maxIterResponse ∧
      (runAgent envAlwaysTools "Fetch my meetings" st0 3).queries = 3 :=
  c1_max_iterations envAlwaysTools "Fetch my meetings" st0 3 (fun _ => rfl)

/-- C2: when the model response at query `q` carries a batch of k tool-call
requests, the loop appends the assistant message followed by exactly k
tool-result messages whose ids match the requests positionally, every one of
those k messages encodes either an error or a normal result, exactly one
error implies k-1 normal results, and the run continues with the next model
query (the recursive call at `q + 1`) instead of aborting. -/
theorem c2_batch_results (env : AgentEnv) (q fuel : Nat) (hist : List AgentMessage)
    (ctx : SharedContext) (content : Option String) (calls : List ToolCall)
    (hllm : env.llm q = LLMResult.reply content calls) (hne : calls ≠ []) :
    runLoop env q (fuel + 1) hist ctx =
      ⟨(runLoop env (q + 1) fuel
          (hist ++ assistantMessage content calls :: (processBatch env ctx calls).1)
          (processBatch env ctx calls).2).state,
        (runLoop env (q + 1) fuel
          (hist ++ assistantMessage content calls :: (processBatch env ctx calls).1)
          (processBatch env ctx calls).2).response,
        (runLoop env (q + 1) fuel
          (hist ++ assistantMessage content calls :: (processBatch env ctx calls).1)
          (processBatch env ctx calls).2).queries + 1⟩ ∧
    (processBatch env ctx calls).1.length = calls.length ∧
    (processBatch env ctx calls).1.map (fun m => m.tool_call_id) =
      calls.map (fun tc => some tc.id) ∧
    (processBatch env ctx calls).1.countP isErrorToolMessage +
      (processBatch env ctx calls).1.countP isOkToolMessage = calls.length ∧
    ((processBatch env ctx calls).1.countP isErrorToolMessage = 1 →
      (processBatch env ctx calls).1.countP isOkToolMessage = calls.length - 1) := by
  refine ⟨?_, processBatch_length env calls ctx, processBatch_map_id env calls ctx,
    processBatch_counts env calls ctx, ?_⟩
  · simp only [runLoop, hllm, if_neg hne]
  · intro h1
    have := processBatch_counts env calls ctx
    omega

/-- C2 witness: a concrete batch of two calls where exactly the first
handler throws yields two result messages, one error and one normal. -/
theorem c2_witness :
    (processBatch envOneErr {} [tcA, tcB]).1.length = 2 ∧
      (processBatch envOneErr {} [tcA, tcB]).1.countP isOkToolMessage = 2 - 1 :=
  ⟨(c2_batch_results envOneErr 0 1 [] {} none [tcA, tcB] rfl (by decide)).2.1,
    (c2_batch_results envOneErr 0 1 [] {} none [tcA, tcB] rfl (by decide)).2.2.2.2 (by decide)⟩

/-- C3: when the acquisition stage succeeds but yields zero records,
`generateReport` returns the distinguished `success = false` result with the
"No meetings found in the specified date range" message, and neither the
analysis stage, nor the executive-summary follow-up, nor the report stage is
ever invoked. -/
theorem c3_no_meetings (env : OrchEnv) (ia ies : Bool)
    (hsucc : env.calendarResult.success = true) (hempty : env.calendarMeetings = []) :
    (generateReport env ia ies).result.success = false ∧
    (generateReport env ia ies).result.message =
      "No meetings found in the specified date range" ∧
    (generateReport env ia ies).invoked = [Stage.calendar] ∧
    Stage.analysis ∉ (generateReport env ia ies).invoked ∧
    Stage.summary ∉ (generateReport env ia ies).invoked ∧
    Stage.report ∉ (generateReport env ia ies).invoked := by
  have hg : generateReport env ia ies =
      { result := { success := false,
                    message := "No meetings found in the specified date range" },
        invoked := [Stage.calendar], reportStageContext := none } := by
    simp [generateReport, hsucc, hempty]
  rw [hg]
  exact ⟨rfl, rfl, rfl, by decide, by decide, by decide⟩

/-- C3 witness at a concrete environment whose acquisition succeeds with an
empty record list. -/
theorem c3_witness :
    (generateReport orchEnvC3 true true).result.success = false ∧
      Stage.report ∉ (generateReport orchEnvC3 true true).invoked :=
  ⟨(c3_no_meetings orchEnvC3 true true rfl rfl).1,
    (c3_no_meetings orchEnvC3 true true rfl rfl).2.2.2.2.2⟩

/-- C4: when acquisition returns 3 records, analysis is requested with the
LLM configured, and the per-record analysis collaborator throws on every
call, the `analyze_all_meetings` handler still reports success with zero
analyses and an empty results map, the pipeline result is `success = true`
with the report stage invoked, and the `analysisResults` carried into
Stage 3 has size 0. -/
theorem c4_analysis_throws (env : OrchEnv)
    (analyze : GraphCalendarEvent → Except String MeetingAnalysis) (ies : Bool)
    (hthrow : ∀ m, ∃ e, analyze m = Except.error e)
    (hres : env.analysisResultsAfter = (analyzeAllMeetings analyze env.calendarMeetings []).2)
    (hcal : env.calendarResult.success = true)
    (hlen : env.calendarMeetings.length = 3)
    (hllm : env.llmConfigured = true)
    (hana : env.analysisResult.success = true)
    (hrep : env.reportResult.success = true) :
    (analyzeAllMeetings analyze env.calendarMeetings []).1 = AnalyzeAllResult.analyzed 0 ∧
    env.analysisResultsAfter = [] ∧
    (generateReport env true ies).result.success = true ∧
    Stage.report ∈ (generateReport env true ies).invoked ∧
    ∃ s, (generateReport env true ies).reportStageContext = some s ∧
      s.analysisResults = [] := by
  have hloop := analyzeAllLoop_throwing analyze hthrow env.calendarMeetings [] 0
  have hne : ¬env.calendarMeetings.length = 0 := by omega
  have h1 : (analyzeAllMeetings analyze env.calendarMeetings []).1 =
      AnalyzeAllResult.analyzed 0 := by
    simp [analyzeAllMeetings, hne, hloop]
  have h2 : env.analysisResultsAfter = [] := by
    rw [hres]
    simp [analyzeAllMeetings, hne, hloop]
  refine ⟨h1, h2, ?_⟩
  cases ies <;>
    simp [generateReport, hcal, hne, hllm, hana, hrep, h2]

/-- C4 witness at a concrete environment with three records and an
always-throwing analysis collaborator. -/
theorem c4_witness :
    (generateReport orchEnvC4 true true).result.success = true ∧
      orchEnvC4.analysisResultsAfter = [] :=
  ⟨(c4_analysis_throws orchEnvC4 analyzeThrow true (fun _ => ⟨"boom", rfl⟩)
      rfl rfl rfl rfl rfl rfl).2.2.1,
    (c4_analysis_throws orchEnvC4 analyzeThrow true (fun _ => ⟨"boom", rfl⟩)
      rfl rfl rfl rfl rfl rfl).2.1⟩

set_option maxRecDepth 16384

/-- C5 counterexample: for a record whose raw text (`bodyPreview`) is empty,
a failed analysis does not return the truncated raw text (the empty string)
as summary; it returns the fixed fallback `'No description available'`. -/
theorem c5_counterexample :
    (analyzeMeeting llmFailEnv evEmptyBody).summary ≠ evEmptyBody.bodyPreview.take 100 ∧
    (analyzeMeeting llmFailEnv evEmptyBody).summary = "No description available" ∧
    (analyzeMeeting llmFailEnv evEmptyBody).category = "other" := by
  decide

/-- C5 (amended): for every record whose per-record analysis fails (the LLM
call throws or its response cannot be parsed as JSON), `analyzeMeeting`
returns the default analysis instead of propagating the error: category
`'other'`, empty action items, empty key topics, and as summary the record's
raw text truncated to its first 100 characters when that text is non-empty,
or `'No description available'` when it is empty. -/
theorem c5_default_on_failure (llm : AnalysisLLM) (event : GraphCalendarEvent)
    (h : (∃ e, llm.chat event = Except.error e) ∨
      (∃ resp, llm.chat event = Except.ok resp ∧ llm.parse (stripFences resp) = none)) :
    analyzeMeeting llm event = defaultAnalysis event ∧
    (analyzeMeeting llm event).category = "other" ∧
    (analyzeMeeting llm event).actionItems = [] ∧
    (analyzeMeeting llm event).keyTopics = [] ∧
    (analyzeMeeting llm event).summary =
      jsOr (event.bodyPreview.take 100) "No description available" := by
  have heq : analyzeMeeting llm event = defaultAnalysis event := by
    rcases h with ⟨e, he⟩ | ⟨resp, hok, hparse⟩
    · simp [analyzeMeeting, he]
    · simp [analyzeMeeting, hok, hparse]
  rw [heq]
  refine ⟨rfl, ?_, ?_, ?_, ?_⟩ <;> simp [defaultAnalysis]

/-- C5 witness at a concrete record with non-empty raw text and a throwing
LLM collaborator. -/
theorem c5_witness :
    (analyzeMeeting llmFailEnv evA).category = "other" ∧
      (analyzeMeeting llmFailEnv evA).summary = "Quarterly planning agenda" :=
  ⟨(c5_default_on_failure llmFailEnv evA
      (Or.inl ⟨"LLM API error: 500 - boom", rfl⟩)).2.1,
    ((c5_default_on_failure llmFailEnv evA
      (Or.inl ⟨"LLM API error: 500 - boom", rfl⟩)).2.2.2.2).trans (by decide)⟩

/-- C6 counterexample: after `Orchestrator.reset()`, a `CalendarAgent` that
had fetched one meeting still holds it - its observable state differs from a
freshly constructed agent, because `CalendarAgent` inherits `BaseAgent.reset`
without clearing its private `meetings` field. -/
theorem c6_counterexample :
    (orchestratorReset sC6).calendarAgent.meetings ≠ [] ∧
    (orchestratorReset sC6).calendarAgent ≠ mkCalendarAgent := by
  decide

/-- C6 (amended): `Orchestrator.reset()` restores every agent's conversation
history and context to the freshly-constructed state, clears the
`AnalysisAgent`'s accumulated analysis results and executive summary, and
empties `SharedContext`, so a subsequent `run()` starts from only the system
message before the new user message; however the `CalendarAgent`'s fetched
`meetings` and cached `userDomain`, and the `ReportAgent`'s cached
`reportData`, are not cleared and persist across `reset()`. -/
theorem c6_reset (s : OrchestratorState) :
    (orchestratorReset s).calendarAgent.base = mkBaseAgent calendarAgentConfig ∧
    (orchestratorReset s).analysisAgent = mkAnalysisAgent ∧
    (orchestratorReset s).reportAgent.base = mkBaseAgent reportAgentConfig ∧
    (orchestratorReset s).sharedContext = {} ∧
    (orchestratorReset s).calendarAgent.meetings = s.calendarAgent.meetings ∧
    (orchestratorReset s).calendarAgent.userDomain = s.calendarAgent.userDomain ∧
    (orchestratorReset s).reportAgent.reportData = s.reportAgent.reportData ∧
    ∀ (env : AgentEnv) (userMsg : String) (n : Nat),
      runAgent env userMsg (orchestratorReset s).calendarAgent.base n =
        runLoop env 0 n [systemMessage calendarSystemPrompt, userMessage userMsg] {} :=
  ⟨rfl, rfl, rfl, rfl, rfl, rfl, rfl, fun _ _ _ => rfl⟩

/-- C7: in every conversation history reachable by any sequence of `run()`
and `reset()` calls from a fresh agent, every `tool` message carries a
`tool_call_id` emitted by the `tool_calls` of a preceding `assistant`
message (so no tool message can precede the first assistant message), and
`run()` only ever appends to the history, never mutating or removing
inserted messages. -/
theorem c7_history_invariant (prompt : String) :
    (∀ h, ReachableHistory prompt h →
      ∀ h1 m h2, h = h1 ++ m :: h2 → m.role = Role.tool →
        ∃ id a, m.tool_call_id = some id ∧ a ∈ h1 ∧ a.role = Role.assistant ∧
          id ∈ a.tool_calls.map (fun tc => tc.id)) ∧
    (∀ (env : AgentEnv) (q fuel : Nat) (hist : List AgentMessage) (ctx : SharedContext),
      ∃ t, (runLoop env q fuel hist ctx).state.conversationHistory = hist ++ t) := by
  constructor
  · have hinv : ∀ h, ReachableHistory prompt h → toolRefsOk [] h = true := by
      intro h hr
      induction hr with
      | init => rfl
      | runStep env userMsg n ctx hr ih =>
        show toolRefsOk [] (runLoop env 0 n _ ctx).state.conversationHistory = true
        apply runLoop_toolRefsOk
        rw [toolRefsOk_append]
        simp [ih, toolRefsOk, userMessage]
      | resetStep hr ih => rfl
    intro h hr h1 m h2 hdecomp hrole
    have hok : toolRefsOk [] h = true := hinv h hr
    rw [hdecomp] at hok
    obtain ⟨id, hid, hcontains⟩ := toolRefsOk_decomp [] h1 m h2 hok hrole
    rcases mem_emittedIds id h1 [] hcontains with hmem | ⟨a, ha, harole, haid⟩
    · simp at hmem
    · exact ⟨id, a, hid, ha, harole, haid⟩
  · intro env q fuel hist ctx
    obtain ⟨t, ht, _⟩ := runLoop_tail env fuel q hist ctx
    exact ⟨t, ht⟩

/-- C7 witness: a concrete two-iteration run whose history contains a tool
message; its `tool_call_id` is found in the preceding assistant message. -/
theorem c7_witness :
    ∃ id a, (toolMessage tcA (ToolOutcome.err "boom")).tool_call_id = some id ∧
      a ∈ [systemMessage "You are a test agent.", userMessage "go",
        assistantMessage none [tcA, tcB]] ∧
      a.role = Role.assistant ∧ id ∈ a.tool_calls.map (fun tc => tc.id) :=
  (c7_history_invariant "You are a test agent.").1 _
    (ReachableHistory.runStep envOneErr "go" 2 {} ReachableHistory.init)
    [systemMessage "You are a test agent.", userMessage "go", assistantMessage none [tcA, tcB]]
    (toolMessage tcA (ToolOutcome.err "boom"))
    [toolMessage tcB (ToolOutcome.ok "ok"), assistantMessage (some "done") []]
    (by decide) rfl

/-- C8: `runCommand` routes by domain keywords with acquisition keywords
checked first, then analysis, then report, defaulting to the acquisition
(calendar) agent when no keyword matches; in particular
"please fetch my meetings for March" routes to the calendar agent and
"generate the excel export" routes to the report agent. -/
theorem c8_keyword_routing :
    routeCommand "please fetch my meetings for March" = Route.calendar ∧
    routeCommand "generate the excel export" = Route.report ∧
    ∀ cmd : String,
      (hasCalendarKeyword (jsToLowerCase cmd) = true → routeCommand cmd = Route.calendar) ∧
      (hasCalendarKeyword (jsToLowerCase cmd) = false →
        hasAnalysisKeyword (jsToLowerCase cmd) = true → routeCommand cmd = Route.analysis) ∧
      (hasCalendarKeyword (jsToLowerCase cmd) = false →
        hasAnalysisKeyword (jsToLowerCase cmd) = false →
        hasReportKeyword (jsToLowerCase cmd) = true → routeCommand cmd = Route.report) ∧
      (hasCalendarKeyword (jsToLowerCase cmd) = false →
        hasAnalysisKeyword (jsToLowerCase cmd) = false →
        hasReportKeyword (jsToLowerCase cmd) = false → routeCommand cmd = Route.calendar) := by
  refine ⟨by decide, by decide, ?_⟩
  intro cmd
  refine ⟨fun h1 => by simp [routeCommand, h1],
    fun h1 h2 => by simp [routeCommand, h1, h2],
    fun h1 h2 h3 => by simp [routeCommand, h1, h2, h3],
    fun h1 h2 h3 => by simp [routeCommand, h1, h2, h3]⟩

/-- C8 witness: the report branch applied at a concrete command containing
only a report keyword. -/
theorem c8_witness : routeCommand "download the file" = Route.report :=
  (c8_keyword_routing.2.2 "download the file").2.2.1 (by decide) (by decide) (by decide)

/-- C9: `run()` is total at its public interface: for every model/tool
behaviour the returned `AgentResponse` is one of exactly three shapes -
success with no error field, the transport-failure result with message
`'Agent failed'` and an error, or the iteration-exhaustion result - and the
run only appends messages after the user message, every appended non-assistant
message being a tool-result message (thrown handler errors are absorbed into
tool-result messages, never escaping to the caller). -/
theorem c9_run_total (env : AgentEnv) (userMsg : String) (st : BaseAgentState) (N : Nat) :
    (((runAgent env userMsg st N).response.success = true ∧
        (runAgent env userMsg st N).response.error = none) ∨
      ((runAgent env userMsg st N).response.success = false ∧
        (runAgent env userMsg st N).response.message = "Agent failed" ∧
        ∃ e, (runAgent env userMsg st N).response.error = some e) ∨
      (runAgent env userMsg st N).response = maxIterResponse) ∧
    ∃ t, (runAgent env userMsg st N).state.conversationHistory =
        st.conversationHistory ++ userMessage userMsg :: t ∧
      ∀ m ∈ t, m.role = Role.assistant ∨
        (m.role = Role.tool ∧ ∃ o, m.content = MsgContent.toolResult o) := by
  constructor
  · exact runLoop_trichotomy env N 0
      (st.conversationHistory ++ [userMessage userMsg]) st.context
  · obtain ⟨t, ht, hmem⟩ :=
      runLoop_tail env N 0 (st.conversationHistory ++ [userMessage userMsg]) st.context
    refine ⟨t, ?_, hmem⟩
    rw [show st.conversationHistory ++ userMessage userMsg :: t =
      (st.conversationHistory ++ [userMessage userMsg]) ++ t by simp]
    exact ht

/-- C9 witness: the statement instantiated at a concrete failing transport. -/
theorem c9_witness :
    (((runAgent envFail "x" st0 1).response.success = true ∧
        (runAgent envFail "x" st0 1).response.error = none) ∨
      ((runAgent envFail "x" st0 1).response.success = false ∧
        (runAgent envFail "x" st0 1).response.message = "Agent failed" ∧
        ∃ e, (runAgent envFail "x" st0 1).response.error = some e) ∨
      (runAgent envFail "x" st0 1).response = maxIterResponse) ∧
    ∃ t, (runAgent envFail "x" st0 1).state.conversationHistory =
        st0.conversationHistory ++ userMessage "x" :: t ∧
      ∀ m ∈ t, m.role = Role.assistant ∨
        (m.role = Role.tool ∧ ∃ o, m.content = MsgContent.toolResult o) :=
  c9_run_total envFail "x" st0 1

/-- C10: `transformEventsToReportRows` produces exactly one row per event
that is not cancelled and whose start instant differs from its end instant,
in input order; cancelled and zero-duration events never yield a row; and
for a non-empty meetings context whose records are all cancelled or
zero-duration, the `generate_excel_report` handler produces a report with
zero data rows rather than the "no meetings" error result. -/
theorem c10_transform_rows :
    (∀ (fmt : DateFns) (events : List GraphCalendarEvent),
      transformEventsToReportRows fmt events =
        (events.filter (fun e => !e.isCancelled && !hasZeroDuration e)).map (toReportRow fmt)) ∧
    (∀ (fmt : DateFns) (events : List GraphCalendarEvent),
      (transformEventsToReportRows fmt events).length =
        events.countP (fun e => !e.isCancelled && !hasZeroDuration e)) ∧
    (∀ (fmt : DateFns) (meetings : List GraphCalendarEvent), meetings ≠ [] →
      generateExcelReportTool fmt meetings =
        ExcelReportOutcome.generated (transformEventsToReportRows fmt meetings).length) ∧
    (∀ (fmt : DateFns) (meetings : List GraphCalendarEvent), meetings ≠ [] →
      (∀ e ∈ meetings, e.isCancelled = true ∨ hasZeroDuration e = true) →
      generateExcelReportTool fmt meetings = ExcelReportOutcome.generated 0) := by
  have hfuse : ∀ (events : List GraphCalendarEvent),
      (events.filter (fun e => !e.isCancelled)).filter (fun e => !hasZeroDuration e) =
        events.filter (fun e => !e.isCancelled && !hasZeroDuration e) := by
    intro events
    rw [List.filter_filter]
    congr 1
    funext e
    exact Bool.and_comm _ _
  have h1 : ∀ (fmt : DateFns) (events : List GraphCalendarEvent),
      transformEventsToReportRows fmt events =
        (events.filter (fun e => !e.isCancelled && !hasZeroDuration e)).map (toReportRow fmt) := by
    intro fmt events
    rw [transformEventsToReportRows, hfuse]
  have h3 : ∀ (fmt : DateFns) (meetings : List GraphCalendarEvent), meetings ≠ [] →
      generateExcelReportTool fmt meetings =
        ExcelReportOutcome.generated (transformEventsToReportRows fmt meetings).length := by
    intro fmt meetings hne
    have hlen : ¬meetings.length = 0 := fun hz => hne (List.length_eq_zero.1 hz)
    simp [generateExcelReportTool, hlen]
  refine ⟨h1, ?_, h3, ?_⟩
  · intro fmt events
    rw [h1, List.length_map, List.countP_eq_length_filter]
  · intro fmt meetings hne hall
    have hnil : transformEventsToReportRows fmt meetings = [] := by
      rw [h1]
      have : meetings.filter (fun e => !e.isCancelled && !hasZeroDuration e) = [] := by
        apply List.filter_eq_nil_iff.2
        intro a ha
        rcases hall a ha with hc | hz
        · simp [hc]
        · simp [hz]
      rw [this]
      rfl
    rw [h3 fmt meetings hne, hnil]
    rfl

/-- C10 witness: a single cancelled meeting yields a generated report with
zero data rows, not the "no meetings" error. -/
theorem c10_witness :
    generateExcelReportTool fmt0 [evCancelled] = ExcelReportOutcome.generated 0 :=
  c10_transform_rows.2.2.2 fmt0 [evCancelled] (by decide) (by decide)
